import Mathlib

/-!
Verification of the sync-translate services of the ai-dungeon-dc-bot
repository, a Discord bot that mirrors messages between channels with
translation.

Each TypeScript service that the specification talks about is embedded as a
small Lean model: pure computations become functions, stateful services
become explicit state records with a step function over event lists, and
fallible calls become Option results or explicit outcome flags.  The models
follow the source files:

  * MessageQueue           (src/sync-translate/message-queue.service.ts,
                            the emoji-aware variant of the same class)
  * AvatarCleanupService   (avatar-cleanup companion of emoji-sync.service.ts)
  * EmojiSyncService       (src/sync-translate/emoji-sync.service.ts)
  * TranslateLLMService    (rate-limited, timeout-classifying variant)
  * SyncMessageService     (src/sync-translate/sync-message.service.ts)
-/

/- ### MessageQueue (message-queue.service.ts)

`addMessage` pushes the queued message and re-sorts the backing array by the
source message creation timestamp; `processQueue` shifts messages off the
front one at a time while the queue is non-empty, guarded by a `processing`
flag.  Enqueues can interleave with sends at await points, which the event
trace below makes explicit. -/

structure QueuedMessage where
  id : String
  timestamp : Nat
  deriving Repr, DecidableEq

/-- Comparator used by `queue.sort((a, b) => a.timestamp - b.timestamp)`. -/
def byTs (a b : QueuedMessage) : Prop := a.timestamp ≤ b.timestamp

instance : DecidableRel byTs := fun a b => Nat.decLe a.timestamp b.timestamp

instance : IsTotal QueuedMessage byTs := ⟨fun a b => Nat.le_total a.timestamp b.timestamp⟩

instance : IsTrans QueuedMessage byTs := ⟨fun _ _ _ hab hbc => Nat.le_trans hab hbc⟩

/-- MessageQueue.addMessage (queue part): push the new message and sort the
whole queue by source timestamp. -/
def MessageQueue.addMessage (q : List QueuedMessage) (m : QueuedMessage) :
    List QueuedMessage :=
  List.insertionSort byTs (q ++ [m])

structure QueueState where
  queue : List QueuedMessage
  processing : Bool
  sent : List QueuedMessage
  deriving Repr, DecidableEq

def initQueueState : QueueState := ⟨[], false, []⟩

/-- Events observable on one MessageQueue: an `enqueue` (addMessage, which
starts draining when idle), a `sendStep` (one iteration of the processQueue
loop: shift the head and send it), and `finishDrain` (the loop exits on an
empty queue and clears the processing flag). -/
inductive QueueEvent
  | enqueue (m : QueuedMessage)
  | sendStep
  | finishDrain
  deriving Repr, DecidableEq

def stepQueue (s : QueueState) : QueueEvent → QueueState
  | .enqueue m => { s with queue := MessageQueue.addMessage s.queue m, processing := true }
  | .sendStep =>
    if s.processing then
      match s.queue with
      | [] => s
      | x :: xs => { s with queue := xs, sent := s.sent ++ [x] }
    else s
  | .finishDrain =>
    if s.processing && s.queue.isEmpty then { s with processing := false } else s

def runQueue (s : QueueState) (evs : List QueueEvent) : QueueState :=
  evs.foldl stepQueue s

/-- A later-timestamped message that is dequeued and sent while an
earlier-timestamped one is still being translated. -/
def msgLate : QueuedMessage := ⟨"late", 5⟩

/-- The earlier message, enqueued only after `msgLate` was already sent. -/
def msgEarly : QueuedMessage := ⟨"early", 3⟩

theorem runQueue_append (s : QueueState) (l₁ l₂ : List QueueEvent) :
    runQueue s (l₁ ++ l₂) = runQueue (runQueue s l₁) l₂ :=
  List.foldl_append _ _ _ _

theorem runQueue_enqueues_sent (s : QueueState) (ms : List QueuedMessage) :
    (runQueue s (ms.map QueueEvent.enqueue)).sent = s.sent := by
  induction ms generalizing s with
  | nil => rfl
  | cons m rest ih => simpa [runQueue, stepQueue] using ih (stepQueue s (.enqueue m))

theorem runQueue_enqueues_sorted (s : QueueState) (ms : List QueuedMessage)
    (hs : List.Sorted byTs s.queue) :
    List.Sorted byTs (runQueue s (ms.map QueueEvent.enqueue)).queue := by
  induction ms generalizing s with
  | nil => exact hs
  | cons m rest ih =>
      have h1 : List.Sorted byTs (stepQueue s (.enqueue m)).queue := by
        simpa [stepQueue, MessageQueue.addMessage] using
          List.sorted_insertionSort byTs (s.queue ++ [m])
      simpa [runQueue, stepQueue] using ih (stepQueue s (.enqueue m)) h1

theorem sendStep_concat (s : QueueState) :
    (stepQueue s .sendStep).sent ++ (stepQueue s .sendStep).queue =
      s.sent ++ s.queue := by
  by_cases hp : s.processing
  · cases hq : s.queue with
    | nil => simp [stepQueue, hp, hq]
    | cons x xs => simp [stepQueue, hp, hq]
  · simp [stepQueue, hp]

theorem runQueue_drain_concat (s : QueueState) (k : Nat) :
    (runQueue s (List.replicate k QueueEvent.sendStep)).sent ++
      (runQueue s (List.replicate k QueueEvent.sendStep)).queue =
      s.sent ++ s.queue := by
  induction k generalizing s with
  | zero => rfl
  | succ n ih =>
      have h :
          runQueue s (List.replicate (n + 1) QueueEvent.sendStep) =
            runQueue (stepQueue s .sendStep) (List.replicate n QueueEvent.sendStep) := by
        simp [runQueue, List.replicate_succ]
      rw [h]
      rw [ih (stepQueue s .sendStep)]
      exact sendStep_concat s

/-- C1 counterexample: a delivery with source timestamp 5 is enqueued and
sent while the queue is otherwise empty; afterward a delivery with source
timestamp 3 arrives (its translation finished later) and is sent second.
The send order 5, 3 is not non-decreasing, so sorting inside `addMessage`
does not make the send order independent of translation completion order. -/
theorem queue_send_order_counterexample :
    ¬ List.Sorted byTs
      (runQueue initQueueState
        [QueueEvent.enqueue msgLate, QueueEvent.sendStep,
         QueueEvent.enqueue msgEarly, QueueEvent.sendStep]).sent := by
  intro h
  have h5 :
      (runQueue initQueueState
        [QueueEvent.enqueue msgLate, QueueEvent.sendStep,
         QueueEvent.enqueue msgEarly, QueueEvent.sendStep]).sent =
        [msgLate, msgEarly] := by
    simp [runQueue, stepQueue, MessageQueue.addMessage, initQueueState,
      List.insertionSort, List.orderedInsert, msgLate, msgEarly]
  rw [h5] at h
  have := List.rel_of_sorted_cons h msgEarly (by simp)
  simp [byTs, msgLate, msgEarly] at this

/-- C1 amended: the pending queue is kept sorted by `timestampOfSource` and
each send dispatches the minimum-timestamp pending item, so whenever all
enqueues for a batch happen before draining the batch, the sends occur in
non-decreasing `timestampOfSource` order. -/
theorem queue_send_order_sorted (ms : List QueuedMessage) (k : Nat) :
    List.Sorted byTs
      (runQueue initQueueState
        (ms.map QueueEvent.enqueue ++ List.replicate k QueueEvent.sendStep)).sent := by
  rw [runQueue_append]
  set s₁ := runQueue initQueueState (ms.map QueueEvent.enqueue) with hs₁
  have hsent : s₁.sent = [] := runQueue_enqueues_sent initQueueState ms
  have hq : List.Sorted byTs s₁.queue :=
    runQueue_enqueues_sorted initQueueState ms (by simp [initQueueState])
  have hconcat := runQueue_drain_concat s₁ k
  rw [hsent] at hconcat
  simp only [List.nil_append] at hconcat
  have hsorted : List.Sorted byTs
      ((runQueue s₁ (List.replicate k QueueEvent.sendStep)).sent ++
        (runQueue s₁ (List.replicate k QueueEvent.sendStep)).queue) := by
    rw [hconcat]; exact hq
  exact (List.pairwise_append.mp hsorted).1

/- ### AvatarCleanupService (avatar-cleanup.service.ts)

Reference counting for downloaded avatar files.  `pendingCleanups` maps a
file path to its reference count; `cleanupTimeouts` records the scheduled
(1 second delayed) deletions; a `fire` event is the timer callback actually
deleting the file.  Counts are modelled as integers so that the
`Math.max(0, currentCount - 1)` clamp in the source is visible. -/

def GRACE_MS : Nat := 1000

def lookupA {α : Type} (l : List (String × α)) (k : String) : Option α :=
  (l.find? (fun e => e.1 == k)).map (fun e => e.2)

def setA {α : Type} (l : List (String × α)) (k : String) (v : α) :
    List (String × α) :=
  match l with
  | [] => [(k, v)]
  | (k', v') :: t => if k' == k then (k, v) :: t else (k', v') :: setA t k v

def eraseA {α : Type} (l : List (String × α)) (k : String) : List (String × α) :=
  l.filter (fun e => ¬(e.1 == k))

structure AvatarState where
  pendingCleanups : List (String × Int)
  cleanupTimeouts : List (String × Nat)
  deleted : List String
  deriving Repr, DecidableEq

def initAvatarState : AvatarState := ⟨[], [], []⟩

inductive AvatarEvent
  | addRef (filePath : Option String)
  | removeRef (filePath : Option String)
  | fire (filePath : String)
  deriving Repr, DecidableEq

/-- One step of AvatarCleanupService: `addRef` increments the count and
cancels any scheduled deletion for the path; `removeRef` decrements with a
clamp at zero and, when the new count is zero, drops the path from the
table and schedules deletion after the 1 second grace window; `fire` is the
scheduled timer callback deleting the file (it only runs while still
scheduled, since `clearTimeout` cancels it otherwise). -/
def stepAvatar (s : AvatarState) : AvatarEvent → AvatarState
  | .addRef none => s
  | .addRef (some p) =>
    let currentCount := (lookupA s.pendingCleanups p).getD 0
    { pendingCleanups := setA s.pendingCleanups p (currentCount + 1),
      cleanupTimeouts := eraseA s.cleanupTimeouts p,
      deleted := s.deleted }
  | .removeRef none => s
  | .removeRef (some p) =>
    let currentCount := (lookupA s.pendingCleanups p).getD 0
    let newCount := max 0 (currentCount - 1)
    if newCount = 0 then
      { pendingCleanups := eraseA s.pendingCleanups p,
        cleanupTimeouts := setA s.cleanupTimeouts p GRACE_MS,
        deleted := s.deleted }
    else
      { pendingCleanups := setA s.pendingCleanups p newCount,
        cleanupTimeouts := s.cleanupTimeouts,
        deleted := s.deleted }
  | .fire p =>
    if (lookupA s.cleanupTimeouts p).isSome then
      { pendingCleanups := s.pendingCleanups,
        cleanupTimeouts := eraseA s.cleanupTimeouts p,
        deleted := s.deleted ++ [p] }
    else s

def runAvatar (s : AvatarState) (evs : List AvatarEvent) : AvatarState :=
  evs.foldl stepAvatar s

theorem lookupA_setA_self {α : Type} (l : List (String × α)) (k : String) (v : α) :
    lookupA (setA l k v) k = some v := by
  induction l with
  | nil => simp [setA, lookupA]
  | cons e t ih =>
      obtain ⟨k', v'⟩ := e
      by_cases h : k' == k
      · simp [setA, h, lookupA]
      · simp only [setA, h, if_false]
        simpa [lookupA, List.find?, h] using ih

theorem mem_setA {α : Type} (l : List (String × α)) (k : String) (v : α)
    (x : String × α) (hx : x ∈ setA l k v) : x = (k, v) ∨ x ∈ l := by
  induction l with
  | nil => simpa [setA] using hx
  | cons e t ih =>
      obtain ⟨k', v'⟩ := e
      by_cases h : k' == k
      · simp only [setA, h, if_true] at hx
        rcases List.mem_cons.mp hx with h1 | h1
        · exact Or.inl h1
        · exact Or.inr (List.mem_cons_of_mem _ h1)
      · simp only [setA, h, if_false] at hx
        rcases List.mem_cons.mp hx with h1 | h1
        · exact Or.inr (by simp [h1])
        · rcases ih h1 with h2 | h2
          · exact Or.inl h2
          · exact Or.inr (List.mem_cons_of_mem _ h2)

theorem mem_eraseA {α : Type} (l : List (String × α)) (k : String)
    (x : String × α) (hx : x ∈ eraseA l k) : x ∈ l :=
  List.mem_of_mem_filter hx

theorem lookupA_mem {α : Type} (l : List (String × α)) (k : String) (v : α)
    (h : lookupA l k = some v) : (k, v) ∈ l := by
  induction l with
  | nil => simp [lookupA] at h
  | cons e t ih =>
      obtain ⟨k', v'⟩ := e
      by_cases hk : k' == k
      · simp [lookupA, List.find?, hk] at h
        have : k' = k := by simpa using hk
        simp [this, h]
      · simp only [lookupA, List.find?, hk] at h
        exact List.mem_cons_of_mem _ (ih h)

theorem runAvatar_nonneg_aux (evs : List AvatarEvent) :
    ∀ (s : AvatarState),
      (∀ x ∈ s.pendingCleanups, 0 ≤ x.2) →
      ∀ x ∈ (runAvatar s evs).pendingCleanups, 0 ≤ x.2 := by
  induction evs with
  | nil => intro s hs x hx; exact hs x hx
  | cons ev rest ih =>
      intro s hs x hx
      refine ih (stepAvatar s ev) ?_ x hx
      intro y hy
      cases ev with
      | addRef fp =>
          cases fp with
          | none => exact hs y hy
          | some p =>
              rcases mem_setA _ _ _ _ hy with h1 | h1
              · subst h1
                rcases hv : lookupA s.pendingCleanups p with _ | v
                · simp [stepAvatar, hv]
                · have := hs _ (lookupA_mem _ _ _ hv)
                  simp only [hv] at *
                  simp only [Option.getD_some]
                  omega
              · exact hs y h1
      | removeRef fp =>
          cases fp with
          | none => exact hs y hy
          | some p =>
              simp only [stepAvatar] at hy
              by_cases hz : max 0 ((lookupA s.pendingCleanups p).getD 0 - 1) = 0
              · simp only [hz, if_true] at hy
                exact hs y (mem_eraseA _ _ _ hy)
              · simp only [hz, if_false] at hy
                rcases mem_setA _ _ _ _ hy with h1 | h1
                · subst h1; simp
                · exact hs y h1
      | fire p =>
          by_cases hf : (lookupA s.cleanupTimeouts p).isSome
          · simp only [stepAvatar, hf, if_true] at hy
            exact hs y hy
          · simp only [stepAvatar, hf, if_false] at hy
            exact hs y hy

/-- Reference counts are never negative, in any reachable state. -/
theorem avatar_counts_nonneg (evs : List AvatarEvent) (q : String) (c : Int)
    (hmem : (q, c) ∈ (runAvatar initAvatarState evs).pendingCleanups) : 0 ≤ c :=
  runAvatar_nonneg_aux evs initAvatarState (by simp [initAvatarState]) (q, c) hmem

theorem runAvatar_append (s : AvatarState) (l₁ l₂ : List AvatarEvent) :
    runAvatar s (l₁ ++ l₂) = runAvatar (runAvatar s l₁) l₂ :=
  List.foldl_append _ _ _ _

theorem stepAvatar_addRef_single (p : String) (i : Int) :
    stepAvatar ⟨[(p, i)], [], []⟩ (AvatarEvent.addRef (some p))
      = ⟨[(p, i + 1)], [], []⟩ := by
  simp [stepAvatar, lookupA, setA, eraseA, List.find?]

theorem runAvatar_adds (p : String) (k : Nat) (i : Int) :
    runAvatar ⟨[(p, i)], [], []⟩ (List.replicate k (AvatarEvent.addRef (some p)))
      = ⟨[(p, i + k)], [], []⟩ := by
  induction k generalizing i with
  | zero => simp [runAvatar]
  | succ n ih =>
      have h : runAvatar ⟨[(p, i)], [], []⟩
          (List.replicate (n + 1) (AvatarEvent.addRef (some p)))
          = runAvatar ⟨[(p, i + 1)], [], []⟩
              (List.replicate n (AvatarEvent.addRef (some p))) := by
        rw [List.replicate_succ]
        simp only [runAvatar, List.foldl_cons, stepAvatar_addRef_single]
      rw [h, ih (i + 1)]
      have : i + 1 + (n : Int) = i + ((n : Int) + 1) := by ring
      simp [this]

theorem runAvatar_adds_init (p : String) (k : Nat) (hk : 0 < k) :
    runAvatar initAvatarState (List.replicate k (AvatarEvent.addRef (some p)))
      = ⟨[(p, (k : Int))], [], []⟩ := by
  obtain ⟨j, rfl⟩ : ∃ j, k = j + 1 := ⟨k - 1, by omega⟩
  rw [List.replicate_succ]
  have h1 : stepAvatar initAvatarState (AvatarEvent.addRef (some p))
      = ⟨[(p, 1)], [], []⟩ := by
    simp [stepAvatar, initAvatarState, lookupA, setA, eraseA]
  simp only [runAvatar, List.foldl_cons, h1]
  have := runAvatar_adds p j 1
  simp only [runAvatar] at this
  rw [this]
  have : (1 : Int) + (j : Int) = ((j : Nat) : Int) + 1 := by ring
  simp [this]

theorem stepAvatar_removeRef_single (p : String) (i : Int) (h : 2 ≤ i) :
    stepAvatar ⟨[(p, i)], [], []⟩ (AvatarEvent.removeRef (some p))
      = ⟨[(p, i - 1)], [], []⟩ := by
  have h1 : max 0 (i - 1) = i - 1 := by omega
  have h2 : ¬(i - 1 = 0) := by omega
  simp [stepAvatar, lookupA, setA, eraseA, List.find?, h1, h2]

theorem runAvatar_removes (p : String) (j : Nat) (i : Int) (h : (j : Int) < i) :
    runAvatar ⟨[(p, i)], [], []⟩ (List.replicate j (AvatarEvent.removeRef (some p)))
      = ⟨[(p, i - j)], [], []⟩ := by
  induction j generalizing i with
  | zero => simp [runAvatar]
  | succ n ih =>
      have hi : 2 ≤ i := by
        have : ((n : Int) + 1) < i := by exact_mod_cast h
        omega
      rw [List.replicate_succ]
      simp only [runAvatar, List.foldl_cons, stepAvatar_removeRef_single p i hi]
      have hn : (n : Int) < i - 1 := by
        have : ((n : Int) + 1) < i := by exact_mod_cast h
        omega
      have := ih (i - 1) hn
      simp only [runAvatar] at this
      rw [this]
      have : i - 1 - (n : Int) = i - ((n : Int) + 1) := by ring
      simp [this]

theorem stepAvatar_removeRef_last (p : String) :
    stepAvatar ⟨[(p, 1)], [], []⟩ (AvatarEvent.removeRef (some p))
      = ⟨[], [(p, GRACE_MS)], []⟩ := by
  simp [stepAvatar, lookupA, setA, eraseA, List.find?]

/-- State of the service after the whole reference-count protocol for one
path: `k` addReference calls followed by `k` removeReference calls. -/
theorem runAvatar_protocol (p : String) (k : Nat) (hk : 0 < k) :
    runAvatar initAvatarState
      (List.replicate k (AvatarEvent.addRef (some p)) ++
       List.replicate k (AvatarEvent.removeRef (some p)))
      = ⟨[], [(p, GRACE_MS)], []⟩ := by
  rw [runAvatar_append, runAvatar_adds_init p k hk]
  obtain ⟨j, rfl⟩ : ∃ j, k = j + 1 := ⟨k - 1, by omega⟩
  rw [List.replicate_succ']
  rw [runAvatar_append]
  have hj : (j : Int) < ((j + 1 : Nat) : Int) := by push_cast; omega
  rw [runAvatar_removes p j _ hj]
  have h1 : ((j + 1 : Nat) : Int) - (j : Int) = 1 := by push_cast; ring
  rw [h1]
  simp [runAvatar, stepAvatar_removeRef_last]

/-- C2: for a path with k pending deliveries (k pre-incremented references,
then one removeReference per delivery): before the k-th removeReference no
deletion is scheduled and nothing is deleted; the k-th removeReference
schedules deletion after the 1 second grace window without deleting yet;
when the scheduled timer fires the file is deleted exactly once; an
addReference arriving before the timer fires cancels the scheduled
deletion, so the timer deletes nothing; and reference counts never go below
zero in any event sequence. -/
theorem avatar_refcount_protocol (k : Nat) (p : String) (hk : 0 < k) :
    (∀ j, j < k →
      lookupA (runAvatar initAvatarState
        (List.replicate k (AvatarEvent.addRef (some p)) ++
         List.replicate j (AvatarEvent.removeRef (some p)))).cleanupTimeouts p = none ∧
      (runAvatar initAvatarState
        (List.replicate k (AvatarEvent.addRef (some p)) ++
         List.replicate j (AvatarEvent.removeRef (some p)))).deleted = []) ∧
    (lookupA (runAvatar initAvatarState
        (List.replicate k (AvatarEvent.addRef (some p)) ++
         List.replicate k (AvatarEvent.removeRef (some p)))).cleanupTimeouts p
        = some GRACE_MS ∧
     (runAvatar initAvatarState
        (List.replicate k (AvatarEvent.addRef (some p)) ++
         List.replicate k (AvatarEvent.removeRef (some p)))).deleted = []) ∧
    ((runAvatar initAvatarState
        (List.replicate k (AvatarEvent.addRef (some p)) ++
         List.replicate k (AvatarEvent.removeRef (some p)) ++
         [AvatarEvent.fire p])).deleted = [p]) ∧
    (lookupA (runAvatar initAvatarState
        (List.replicate k (AvatarEvent.addRef (some p)) ++
         List.replicate k (AvatarEvent.removeRef (some p)) ++
         [AvatarEvent.addRef (some p)])).cleanupTimeouts p = none ∧
     (runAvatar initAvatarState
        (List.replicate k (AvatarEvent.addRef (some p)) ++
         List.replicate k (AvatarEvent.removeRef (some p)) ++
         [AvatarEvent.addRef (some p), AvatarEvent.fire p])).deleted = []) ∧
    (∀ (evs : List AvatarEvent) (q : String) (c : Int),
      (q, c) ∈ (runAvatar initAvatarState evs).pendingCleanups → 0 ≤ c) := by
  have hproto := runAvatar_protocol p k hk
  have hproto2 : runAvatar
      (runAvatar initAvatarState (List.replicate k (AvatarEvent.addRef (some p))))
      (List.replicate k (AvatarEvent.removeRef (some p)))
      = ⟨[], [(p, GRACE_MS)], []⟩ := by
    rw [← runAvatar_append]; exact hproto
  refine ⟨?_, ?_, ?_, ?_, avatar_counts_nonneg⟩
  · intro j hj
    rw [runAvatar_append, runAvatar_adds_init p k hk]
    have hji : (j : Int) < (k : Int) := by exact_mod_cast hj
    rw [runAvatar_removes p j _ hji]
    constructor
    · simp [lookupA]
    · rfl
  · rw [runAvatar_append, hproto2]
    constructor
    · simp [lookupA, List.find?]
    · rfl
  · rw [runAvatar_append, runAvatar_append, hproto2]
    simp [runAvatar, stepAvatar, lookupA, List.find?, eraseA]
  · constructor
    · rw [runAvatar_append, runAvatar_append, hproto2]
      simp [runAvatar, stepAvatar, lookupA, setA, eraseA, List.find?]
    · rw [runAvatar_append, runAvatar_append, hproto2]
      simp [runAvatar, stepAvatar, lookupA, setA, eraseA, List.find?]

/-- Witness for C2 at k = 2, path "a". -/
theorem avatar_refcount_protocol_witness :
    0 < 2 ∧
    ((∀ j, j < 2 →
      lookupA (runAvatar initAvatarState
        (List.replicate 2 (AvatarEvent.addRef (some "a")) ++
         List.replicate j (AvatarEvent.removeRef (some "a")))).cleanupTimeouts "a" = none ∧
      (runAvatar initAvatarState
        (List.replicate 2 (AvatarEvent.addRef (some "a")) ++
         List.replicate j (AvatarEvent.removeRef (some "a")))).deleted = []) ∧
    (lookupA (runAvatar initAvatarState
        (List.replicate 2 (AvatarEvent.addRef (some "a")) ++
         List.replicate 2 (AvatarEvent.removeRef (some "a")))).cleanupTimeouts "a"
        = some GRACE_MS ∧
     (runAvatar initAvatarState
        (List.replicate 2 (AvatarEvent.addRef (some "a")) ++
         List.replicate 2 (AvatarEvent.removeRef (some "a")))).deleted = []) ∧
    ((runAvatar initAvatarState
        (List.replicate 2 (AvatarEvent.addRef (some "a")) ++
         List.replicate 2 (AvatarEvent.removeRef (some "a")) ++
         [AvatarEvent.fire "a"])).deleted = ["a"]) ∧
    (lookupA (runAvatar initAvatarState
        (List.replicate 2 (AvatarEvent.addRef (some "a")) ++
         List.replicate 2 (AvatarEvent.removeRef (some "a")) ++
         [AvatarEvent.addRef (some "a")])).cleanupTimeouts "a" = none ∧
     (runAvatar initAvatarState
        (List.replicate 2 (AvatarEvent.addRef (some "a")) ++
         List.replicate 2 (AvatarEvent.removeRef (some "a")) ++
         [AvatarEvent.addRef (some "a"), AvatarEvent.fire "a"])).deleted = []) ∧
    (∀ (evs : List AvatarEvent) (q : String) (c : Int),
      (q, c) ∈ (runAvatar initAvatarState evs).pendingCleanups → 0 ≤ c)) :=
  ⟨by decide, avatar_refcount_protocol 2 "a" (by decide)⟩

/-- C9: calling removeReference on a file path that has no recorded
references (count zero, path absent from the pending table) is not a
no-op: it schedules deletion of the file after the 1 second grace window,
exactly like the transition from one reference to zero. -/
theorem removeRef_absent_schedules (s : AvatarState) (p : String)
    (h : lookupA s.pendingCleanups p = none) :
    lookupA (stepAvatar s (AvatarEvent.removeRef (some p))).cleanupTimeouts p
      = some GRACE_MS := by
  simp only [stepAvatar, h]
  norm_num
  exact lookupA_setA_self _ _ _

/-- Witness for C9: removeReference on the untouched initial state. -/
theorem removeRef_absent_schedules_witness :
    lookupA initAvatarState.pendingCleanups "a" = none ∧
    lookupA (stepAvatar initAvatarState
      (AvatarEvent.removeRef (some "a"))).cleanupTimeouts "a" = some GRACE_MS :=
  ⟨by decide, removeRef_absent_schedules initAvatarState "a" (by decide)⟩

/- ### EmojiSyncService (emoji-sync.service.ts)

Cross-server emoji bridging: `extractAndCloneEmojis` walks the custom-emoji
tokens of a message, reuses emojis already present in the target guild,
clones missing ones from the source guild, and degrades to a `:name:` text
placeholder when the emoji cannot be located or cloned.  Cloned emojis are
tracked in `temporaryEmojis` under the key `guildId_clonedId` and removed
again by `cleanupEmoji`. -/

structure EmojiRef where
  name : String
  id : String
  animated : Bool
  deriving Repr, DecidableEq

/-- Discord custom-emoji token rendering used throughout the service. -/
def fmtEmoji (animated : Bool) (name id : String) : String :=
  if animated then "<a:" ++ name ++ ":" ++ id ++ ">"
  else "<:" ++ name ++ ":" ++ id ++ ">"

/-- Text placeholder a token degrades to. -/
def fmtPlaceholder (name : String) : String := ":" ++ name ++ ":"

/-- Emoji slots permitted by the target guild premium tier. -/
def maxEmojisFor (premiumTier : Nat) : Nat :=
  if 2 ≤ premiumTier then 150 else if 1 ≤ premiumTier then 100 else 50

/-- EmojiSyncService.cloneEmojiToGuild: null when the bot lacks the
ManageEmojisAndStickers permission, when the guild is at its emoji
capacity, or when the create call fails; otherwise the created emoji. -/
def cloneEmojiToGuild (hasManagePermission : Bool) (emojiCount premiumTier : Nat)
    (createResult : Option EmojiRef) : Option EmojiRef :=
  if !hasManagePermission then none
  else if maxEmojisFor premiumTier ≤ emojiCount then none
  else createResult

/-- Source-emoji resolution: the source guild cache first, then the direct
application-emoji fetch. -/
def resolveSourceEmoji (sourceCache fetched : Option EmojiRef) : Option EmojiRef :=
  match sourceCache with
  | some e => some e
  | none => fetched

/-- Environment for one custom-emoji token inside extractAndCloneEmojis:
the relevant cache lookups and the outcomes of the two remote calls. -/
structure EmojiTokenEnv where
  targetById : Option EmojiRef
  targetByName : Option EmojiRef
  sourceCache : Option EmojiRef
  fetched : Option EmojiRef
  hasManagePermission : Bool
  emojiCount : Nat
  premiumTier : Nat
  createResult : Option EmojiRef
  deriving Repr, DecidableEq

structure TokenOutcome where
  rewritten : String
  cloneRecords : List EmojiRef
  deriving Repr, DecidableEq

/-- Per-token body of EmojiSyncService.extractAndCloneEmojis: reuse an
existing target-guild emoji (by id, then by name), otherwise resolve the
source emoji and clone it, otherwise degrade the token to a `:name:`
placeholder.  Always returns an outcome; no branch fails the send. -/
def processEmojiToken (tok : EmojiRef) (env : EmojiTokenEnv) : TokenOutcome :=
  match (match env.targetById with
         | some e => some e
         | none => env.targetByName) with
  | some existing => ⟨fmtEmoji tok.animated existing.name existing.id, []⟩
  | none =>
    match resolveSourceEmoji env.sourceCache env.fetched with
    | none => ⟨fmtPlaceholder tok.name, []⟩
    | some _ =>
      match cloneEmojiToGuild env.hasManagePermission env.emojiCount
          env.premiumTier env.createResult with
      | some cloned => ⟨fmtEmoji tok.animated cloned.name cloned.id, [cloned]⟩
      | none => ⟨fmtPlaceholder tok.name, []⟩

/-- C4: for every custom-emoji token, when the target guild already has the
emoji (same id, or failing that same name) the token is rewritten to that
guild's copy with zero clone records; when it is absent there but the
source emoji is located (cache or secondary fetch) and the clone call
succeeds, exactly one clone record is produced and the token references
the clone; when the source emoji cannot be located anywhere, or cloning
fails (capacity, permission, or any error), the token degrades to the
`:name:` placeholder with zero clone records. -/
theorem emoji_token_cases (tok : EmojiRef) (env : EmojiTokenEnv) :
    (∀ e : EmojiRef,
      (env.targetById = some e ∨ (env.targetById = none ∧ env.targetByName = some e)) →
      processEmojiToken tok env = ⟨fmtEmoji tok.animated e.name e.id, []⟩) ∧
    (env.targetById = none → env.targetByName = none →
      ∀ c : EmojiRef,
        resolveSourceEmoji env.sourceCache env.fetched ≠ none →
        cloneEmojiToGuild env.hasManagePermission env.emojiCount
          env.premiumTier env.createResult = some c →
        processEmojiToken tok env = ⟨fmtEmoji tok.animated c.name c.id, [c]⟩) ∧
    (env.targetById = none → env.targetByName = none →
      (resolveSourceEmoji env.sourceCache env.fetched = none ∨
       cloneEmojiToGuild env.hasManagePermission env.emojiCount
         env.premiumTier env.createResult = none) →
      processEmojiToken tok env = ⟨fmtPlaceholder tok.name, []⟩) := by
  refine ⟨?_, ?_, ?_⟩
  · rintro e (h | ⟨h1, h2⟩)
    · simp [processEmojiToken, h]
    · simp [processEmojiToken, h1, h2]
  · intro h1 h2 c hsrc hclone
    rcases hres : resolveSourceEmoji env.sourceCache env.fetched with _ | src
    · exact absurd hres hsrc
    · simp [processEmojiToken, h1, h2, hres, hclone]
  · intro h1 h2 hfail
    rcases hfail with hsrc | hclone
    · simp [processEmojiToken, h1, h2, hsrc]
    · rcases hres : resolveSourceEmoji env.sourceCache env.fetched with _ | src
      · simp [processEmojiToken, h1, h2, hres]
      · simp [processEmojiToken, h1, h2, hres, hclone]

/-- Witness for C4: a token absent from the target guild whose source emoji
is in the source cache and whose clone call succeeds yields exactly one
clone record, and a token whose clone call fails for lack of permission
degrades to the placeholder. -/
theorem emoji_token_cases_witness :
    processEmojiToken ⟨"wave", "1", false⟩
      ⟨none, none, some ⟨"wave", "1", false⟩, none, true, 3, 0, some ⟨"temp_wave", "9", false⟩⟩
      = ⟨fmtEmoji false "temp_wave" "9", [⟨"temp_wave", "9", false⟩]⟩ ∧
    processEmojiToken ⟨"wave", "1", false⟩
      ⟨none, none, some ⟨"wave", "1", false⟩, none, false, 3, 0, some ⟨"temp_wave", "9", false⟩⟩
      = ⟨fmtPlaceholder "wave", []⟩ := by
  constructor
  · exact (emoji_token_cases ⟨"wave", "1", false⟩
      ⟨none, none, some ⟨"wave", "1", false⟩, none, true, 3, 0,
        some ⟨"temp_wave", "9", false⟩⟩).2.1 rfl rfl
      ⟨"temp_wave", "9", false⟩ (by decide) (by decide)
  · exact (emoji_token_cases ⟨"wave", "1", false⟩
      ⟨none, none, some ⟨"wave", "1", false⟩, none, false, 3, 0,
        some ⟨"temp_wave", "9", false⟩⟩).2.2 rfl rfl (Or.inr (by decide))

/-- Clone-tracking record kept in `temporaryEmojis` (the `clonedEmoji`
object is reduced to its deletability). -/
structure EmojiCloneInfo where
  originalId : String
  originalName : String
  clonedId : String
  animated : Bool
  guildId : String
  deriving Repr, DecidableEq

/-- Tracking key `${guildId}_${clonedId}` used by the temporaryEmojis map. -/
def emojiKey (guildId clonedId : String) : String := guildId ++ "_" ++ clonedId

/-- EmojiSyncService.isTemporaryEmoji. -/
def isTemporaryEmoji (tempMap : List (String × EmojiCloneInfo))
    (emojiId guildId : String) : Bool :=
  (lookupA tempMap (emojiKey guildId emojiId)).isSome

inductive CleanupEffect
  | untrack (key : String)
  | remoteDelete (clonedId : String) (failed : Bool)
  deriving Repr, DecidableEq

/-- EmojiSyncService.cleanupEmoji: remove the clone from the tracking map
first, then attempt the remote delete when the emoji is deletable; a
failing delete call is caught and changes nothing further.  Returns the new
tracking map together with the ordered effect trace. -/
def cleanupEmoji (tempMap : List (String × EmojiCloneInfo))
    (info : EmojiCloneInfo) (deletable deleteFails : Bool) :
    List (String × EmojiCloneInfo) × List CleanupEffect :=
  let key := emojiKey info.guildId info.clonedId
  let newMap := eraseA tempMap key
  (newMap,
    CleanupEffect.untrack key ::
      (if deletable then [CleanupEffect.remoteDelete info.clonedId deleteFails] else []))

theorem lookupA_eraseA_self {α : Type} (l : List (String × α)) (k : String) :
    lookupA (eraseA l k) k = none := by
  induction l with
  | nil => rfl
  | cons e t ih =>
      obtain ⟨k', v'⟩ := e
      by_cases h : k' = k
      · subst h
        have hstep : eraseA ((k', v') :: t) k' = eraseA t k' := by
          simp [eraseA]
        rw [hstep]; exact ih
      · have hb : (k' == k) = false := by simpa using h
        have hstep : eraseA ((k', v') :: t) k = (k', v') :: eraseA t k := by
          simp [eraseA, List.filter_cons, h]
        rw [hstep]
        simpa [lookupA, List.find?, hb] using ih

/-- C10: cleanupEmoji removes the clone from the tracking table before any
remote deletion is attempted (the untrack effect precedes everything else),
and afterwards isTemporaryEmoji answers false for that clone and guild even
when the emoji was not deletable or the remote delete call failed. -/
theorem cleanup_untracks_first (tempMap : List (String × EmojiCloneInfo))
    (info : EmojiCloneInfo) (deletable deleteFails : Bool) :
    isTemporaryEmoji (cleanupEmoji tempMap info deletable deleteFails).1
        info.clonedId info.guildId = false ∧
    ((cleanupEmoji tempMap info deletable deleteFails).2.head? =
        some (CleanupEffect.untrack (emojiKey info.guildId info.clonedId))) := by
  constructor
  · simp [cleanupEmoji, isTemporaryEmoji, lookupA_eraseA_self]
  · simp [cleanupEmoji]

/- ### MessageQueue.sendTranslatedMessage (emoji-aware variant)

Exit-path model of the send routine.  The environment captures the
outcomes of the awaited calls in program order: the debug channel fetch,
emoji processing (whose internal failure is caught and leaves the clone
list empty), the webhook send, the fallback channel fetch and text check,
and the fallback plain send.  The effects record which clone records got a
cleanup scheduled, which avatar paths were released, and whether the
routine rethrew. -/

structure SendEnv where
  cachedProfilePath : Option String
  extractedProfilePath : Option String
  emojiClones : List EmojiCloneInfo
  emojiProcessingThrows : Bool
  channelFetchThrows : Bool
  webhookThrows : Bool
  webhookSuccess : Bool
  targetChannelIsText : Bool
  fallbackSendThrows : Bool
  deriving Repr, DecidableEq

structure SendEffects where
  cleanupScheduled : List EmojiCloneInfo
  avatarReleased : List String
  threw : Bool
  deriving Repr, DecidableEq

/-- Profile path the happy path releases: the cached one if the delivery
carried a profile, otherwise whatever the in-function extraction found. -/
def effectiveProfilePath (env : SendEnv) : Option String :=
  match env.cachedProfilePath with
  | some p => some p
  | none => env.extractedProfilePath

/-- Effects of the catch block: schedule cleanup for the clones produced so
far and release the avatar reference recorded on the queued message (only
the cached path — the catch block reads queuedMessage.userProfile), then
rethrow. -/
def catchEffects (env : SendEnv) (clones : List EmojiCloneInfo) : SendEffects :=
  { cleanupScheduled := clones,
    avatarReleased := env.cachedProfilePath.toList,
    threw := true }

/-- MessageQueue.sendTranslatedMessage, reduced to its exit paths. -/
def sendTranslatedMessage (env : SendEnv) : SendEffects :=
  if env.channelFetchThrows then catchEffects env [] else
  let clones := if env.emojiProcessingThrows then [] else env.emojiClones
  if env.webhookThrows then catchEffects env clones else
  if env.webhookSuccess then
    { cleanupScheduled := clones,
      avatarReleased := (effectiveProfilePath env).toList,
      threw := false }
  else if !env.targetChannelIsText then
    { cleanupScheduled := [], avatarReleased := [], threw := false }
  else if env.fallbackSendThrows then catchEffects env clones
  else
    { cleanupScheduled := clones,
      avatarReleased := (effectiveProfilePath env).toList,
      threw := false }

/-- The failing input for C3: the webhook send fails, the fetched fallback
channel is not text-based, one emoji clone was produced and a cached
avatar path exists. -/
def sendEnvEarlyReturn : SendEnv :=
  { cachedProfilePath := some "pfp.png",
    extractedProfilePath := none,
    emojiClones := [⟨"1", "wave", "9", false, "g2"⟩],
    emojiProcessingThrows := false,
    channelFetchThrows := false,
    webhookThrows := false,
    webhookSuccess := false,
    targetChannelIsText := false,
    fallbackSendThrows := false }

/-- C3 bug witness: on the exit path where the webhook send fails and the
fetched fallback channel is not text-based, sendTranslatedMessage returns
early with no emoji cleanup scheduled and without releasing the avatar
reference, even though a clone record and a cached avatar path exist.
This contradicts the required release-on-every-exit-path behaviour. -/
theorem send_early_return_leaks :
    sendTranslatedMessage sendEnvEarlyReturn =
      { cleanupScheduled := [], avatarReleased := [], threw := false } ∧
    sendEnvEarlyReturn.emojiClones ≠ [] ∧
    sendEnvEarlyReturn.cachedProfilePath ≠ none := by
  refine ⟨rfl, by decide, by decide⟩

/- ### TranslateLLMService (rate-limited, timeout-classifying variant)

Primary-translator retry loop and the global one-second rate limit.  The
retry loop makes up to MAX_RETRIES attempts; a failure classified as a
timeout (the request exceeded TIMEOUT_MS, or a network timeout error)
waits 3 ^ attempt * 2000 ms before the retry, any other failure waits
2 ^ attempt * 1000 ms. -/

def MAX_RETRIES : Nat := 3

def RATE_LIMIT_MS : Nat := 1000

def TIMEOUT_MS : Nat := 30000

/-- Wait inserted between a failed attempt and the next one. -/
def retryWaitMs (isTimeout : Bool) (attempt : Nat) : Nat :=
  if isTimeout then 3 ^ attempt * 2000 else 2 ^ attempt * 1000

/-- The timeout backoff as the claim words it: an exponential backoff with
base 3, multiplied by the attempt number, in seconds. -/
def claimedTimeoutWaitMs (attempt : Nat) : Nat := 3 ^ attempt * attempt * 1000

inductive AttemptResult
  | success (text : String)
  | failure (isTimeout : Bool)
  deriving Repr, DecidableEq

def isFailure : AttemptResult → Bool
  | .success _ => false
  | .failure _ => true

def failureIsTimeout : AttemptResult → Bool
  | .success _ => false
  | .failure t => t

structure RetryTrace where
  result : Option String
  waits : List Nat
  attempts : Nat
  deriving Repr, DecidableEq

/-- The attempt loop of executeTranslation: attempts are numbered from 1;
after a failed attempt below MAX_RETRIES the classified wait is performed;
exhausting MAX_RETRIES attempts gives up (the caller then fails over to
the secondary translator). -/
def runRetriesAux (outcomes : Nat → AttemptResult) (attempt fuel : Nat) : RetryTrace :=
  match fuel with
  | 0 => ⟨none, [], 0⟩
  | f + 1 =>
    match outcomes attempt with
    | .success t => ⟨some t, [], 1⟩
    | .failure isT =>
      if attempt < MAX_RETRIES then
        let r := runRetriesAux outcomes (attempt + 1) f
        ⟨r.result, retryWaitMs isT attempt :: r.waits, r.attempts + 1⟩
      else ⟨none, [], 1⟩

def runRetries (outcomes : Nat → AttemptResult) : RetryTrace :=
  runRetriesAux outcomes 1 MAX_RETRIES

/-- C5 counterexample: after the first timeout-classified failure the code
waits 3 ^ 1 * 2000 = 6000 ms, while a backoff of base 3 multiplied by the
attempt number in seconds would wait 3000 ms; the two disagree already at
attempt 1. -/
theorem timeout_backoff_counterexample :
    retryWaitMs true 1 = 6000 ∧ claimedTimeoutWaitMs 1 = 3000 ∧
    retryWaitMs true 1 ≠ claimedTimeoutWaitMs 1 := by
  refine ⟨by decide, by decide, by decide⟩

/-- C5 amended: a failed attempt followed by a retry waits according to the
failure class — a timeout-classified failure waits 3 ^ attempt * 2 seconds
(6 s, 18 s, 54 s), a non-timeout API error waits 2 ^ attempt * 1 second
(2 s, 4 s, 8 s), the timeout backoff being strictly longer — and at most
MAX_RETRIES = 3 attempts are made before the failure is reported (and the
caller fails over to the secondary translator). -/
theorem retry_backoff_classified (outcomes : Nat → AttemptResult) :
    (runRetries outcomes).attempts ≤ MAX_RETRIES ∧
    MAX_RETRIES = 3 ∧ TIMEOUT_MS = 30000 ∧
    (∀ a : Nat, retryWaitMs true a = 3 ^ a * 2000 ∧ retryWaitMs false a = 2 ^ a * 1000) ∧
    (∀ a : Nat, retryWaitMs false a < retryWaitMs true a) ∧
    ((∀ a, 1 ≤ a → a ≤ MAX_RETRIES → isFailure (outcomes a) = true) →
      (runRetries outcomes).result = none ∧
      (runRetries outcomes).attempts = 3 ∧
      (runRetries outcomes).waits =
        [retryWaitMs (failureIsTimeout (outcomes 1)) 1,
         retryWaitMs (failureIsTimeout (outcomes 2)) 2]) := by
  refine ⟨?_, rfl, rfl, ?_, ?_, ?_⟩
  · rcases h1 : outcomes 1 with t | b1
    · simp [runRetries, runRetriesAux, MAX_RETRIES, h1]
    · rcases h2 : outcomes 2 with t | b2
      · simp [runRetries, runRetriesAux, MAX_RETRIES, h1, h2]
      · rcases h3 : outcomes 3 with t | b3
        · simp [runRetries, runRetriesAux, MAX_RETRIES, h1, h2, h3]
        · simp [runRetries, runRetriesAux, MAX_RETRIES, h1, h2, h3]
  · intro a; exact ⟨by simp [retryWaitMs], by simp [retryWaitMs]⟩
  · intro a
    simp only [retryWaitMs, if_true, if_false, Bool.false_eq_true]
    have h32 : 2 ^ a ≤ 3 ^ a := Nat.pow_le_pow_left (by omega) a
    have hp : 0 < 2 ^ a := Nat.pos_pow_of_pos a (by omega)
    calc 2 ^ a * 1000 < 2 ^ a * 2000 :=
          mul_lt_mul_of_pos_left (by omega) hp
      _ ≤ 3 ^ a * 2000 := Nat.mul_le_mul_right _ h32
  · intro hall
    have h1 := hall 1 (by decide) (by decide)
    have h2 := hall 2 (by decide) (by decide)
    have h3 := hall 3 (by decide) (by decide)
    rcases hx1 : outcomes 1 with t | b1
    · rw [hx1] at h1; simp [isFailure] at h1
    · rcases hx2 : outcomes 2 with t | b2
      · rw [hx2] at h2; simp [isFailure] at h2
      · rcases hx3 : outcomes 3 with t | b3
        · rw [hx3] at h3; simp [isFailure] at h3
        · refine ⟨?_, ?_, ?_⟩ <;>
            simp [runRetries, runRetriesAux, MAX_RETRIES, hx1, hx2, hx3, failureIsTimeout]

/-- Witness for C5 amended: every attempt times out; the loop makes three
attempts, waits 6 s then 18 s, and reports failure. -/
theorem retry_backoff_classified_witness :
    (runRetries (fun _ => AttemptResult.failure true)).result = none ∧
    (runRetries (fun _ => AttemptResult.failure true)).attempts = 3 ∧
    (runRetries (fun _ => AttemptResult.failure true)).waits = [6000, 18000] := by
  have h := (retry_backoff_classified (fun _ => AttemptResult.failure true)).2.2.2.2.2
    (fun a _ _ => rfl)
  refine ⟨h.1, h.2.1, ?_⟩
  rw [h.2.2]
  decide

/-- Dispatch time of one executeTranslation call: on entry the service
compares the clock reading against the last dispatch time and sleeps out
the remainder of the RATE_LIMIT_MS interval before issuing the call; the
dispatch time is recorded as the new last translation time. -/
def rateLimitDispatch (lastTime now : Nat) : Nat :=
  if now - lastTime < RATE_LIMIT_MS then now + (RATE_LIMIT_MS - (now - lastTime))
  else now

/-- Calls routed through the promise chain in TranslateLLMService.translate
run strictly one after another; each call observes the clock (`now`) after
the previous call dispatched, then rate-limits against the previous
dispatch.  The result is the list of actual dispatch times, in call order. -/
def processCalls (lastTime : Nat) : List Nat → List Nat
  | [] => []
  | now :: rest =>
    let d := rateLimitDispatch lastTime now
    d :: processCalls d rest

/-- The clock readings are consistent with the serialization: each call
reads the clock no earlier than the previous dispatch (clock monotonicity
across the sequential promise chain). -/
def arrivalsValid (lastTime : Nat) : List Nat → Bool
  | [] => true
  | now :: rest => lastTime ≤ now && arrivalsValid (rateLimitDispatch lastTime now) rest

/-- Consecutive dispatch times at least RATE_LIMIT_MS apart. -/
def dispatchesSpaced : List Nat → Bool
  | [] => true
  | [_] => true
  | a :: b :: t => a + RATE_LIMIT_MS ≤ b && dispatchesSpaced (b :: t)

theorem rateLimitDispatch_ge (lastTime now : Nat) (h : lastTime ≤ now) :
    lastTime + RATE_LIMIT_MS ≤ rateLimitDispatch lastTime now := by
  unfold rateLimitDispatch
  by_cases hc : now - lastTime < RATE_LIMIT_MS
  · simp only [hc, if_true]; omega
  · simp only [hc, if_false]; omega

theorem rateLimitDispatch_ge_now (lastTime now : Nat) :
    now ≤ rateLimitDispatch lastTime now := by
  unfold rateLimitDispatch
  by_cases hc : now - lastTime < RATE_LIMIT_MS
  · simp only [hc, if_true]; omega
  · simp only [hc, if_false]; omega

/-- C7: for calls serialized through the global queue, every dispatch
happens at least RATE_LIMIT_MS (1 second) after the previous dispatch, and
in particular the second of two concurrent calls dispatches no earlier
than the first dispatch plus the minimum interval; no call is dropped or
reordered (one dispatch per call, in call order). -/
theorem rate_limit_spacing (lastTime : Nat) (arrivals : List Nat)
    (hv : arrivalsValid lastTime arrivals = true) :
    dispatchesSpaced (processCalls lastTime arrivals) = true ∧
    (processCalls lastTime arrivals).length = arrivals.length ∧
    (∀ a ∈ arrivals.head?, ∀ d ∈ (processCalls lastTime arrivals).head?,
      lastTime + RATE_LIMIT_MS ≤ d ∨ lastTime + RATE_LIMIT_MS ≤ a) := by
  induction arrivals generalizing lastTime with
  | nil => exact ⟨rfl, rfl, by simp⟩
  | cons now rest ih =>
      simp only [arrivalsValid, Bool.and_eq_true, decide_eq_true_eq] at hv
      obtain ⟨hle, hrest⟩ := hv
      have hd := rateLimitDispatch_ge lastTime now hle
      obtain ⟨ihs, ihl, _⟩ := ih (rateLimitDispatch lastTime now) hrest
      refine ⟨?_, by simp [processCalls, ihl], ?_⟩
      · cases hr : rest with
        | nil => simp [processCalls, dispatchesSpaced]
        | cons now2 rest2 =>
            rw [hr] at ihs hrest
            simp only [processCalls, dispatchesSpaced, Bool.and_eq_true,
              decide_eq_true_eq]
            constructor
            · simp only [arrivalsValid, Bool.and_eq_true, decide_eq_true_eq] at hrest
              have h2 := rateLimitDispatch_ge (rateLimitDispatch lastTime now) now2 hrest.1
              exact h2
            · simpa [processCalls] using ihs
      · intro a ha d hdm
        simp only [List.head?_cons, Option.mem_def, Option.some.injEq] at ha
        simp only [processCalls, List.head?_cons, Option.mem_def, Option.some.injEq] at hdm
        left; rw [← hdm]; exact hd

/-- Witness for C7: two calls both arriving at time 100000 (after an idle
period); the first dispatches at 100000, the second at 101000. -/
theorem rate_limit_spacing_witness :
    arrivalsValid 0 [100000, 100000] = true ∧
    dispatchesSpaced (processCalls 0 [100000, 100000]) = true ∧
    processCalls 0 [100000, 100000] = [100000, 101000] :=
  ⟨by decide, (rate_limit_spacing 0 [100000, 100000] (by decide)).1, by decide⟩

/- ### SyncMessageService (sync-message.service.ts)

Message intake guards and the per-target translate-and-enqueue policy. -/

structure IncomingMessage where
  authorIsBot : Bool
  content : String
  inGuild : Bool
  deriving Repr, DecidableEq

/-- SyncMessageService.handleMessage admission: none means the handler
returns immediately without translating, enqueueing, or touching any
state; some () means the message proceeds to processSyncedMessage. -/
def handleMessageGate (m : IncomingMessage) : Option Unit :=
  if m.authorIsBot then none
  else if m.content.trim.length = 0 then none
  else if !m.inGuild then none
  else some ()

/-- C8: a message from the bot itself, or with empty or whitespace-only
content, or outside a guild, is rejected by handleMessage as a no-op: no
translation, no enqueue, no state mutation, and no error. -/
theorem handle_message_rejects (m : IncomingMessage)
    (h : m.authorIsBot = true ∨ m.content.trim.length = 0 ∨ m.inGuild = false) :
    handleMessageGate m = none := by
  rcases h with h | h | h
  · simp [handleMessageGate, h]
  · by_cases hb : m.authorIsBot
    · simp [handleMessageGate, hb]
    · simp [handleMessageGate, hb, h]
  · by_cases hb : m.authorIsBot
    · simp [handleMessageGate, hb]
    · by_cases hc : m.content.trim.length = 0
      · simp [handleMessageGate, hb, hc]
      · simp [handleMessageGate, hb, hc, h]

/-- Witness for C8: a message whose author is the bot itself is rejected. -/
theorem handle_message_rejects_witness :
    ((⟨true, "hello", true⟩ : IncomingMessage).authorIsBot = true ∨
      (⟨true, "hello", true⟩ : IncomingMessage).content.trim.length = 0 ∨
      (⟨true, "hello", true⟩ : IncomingMessage).inGuild = false) ∧
    handleMessageGate ⟨true, "hello", true⟩ = none :=
  ⟨Or.inl rfl, handle_message_rejects ⟨true, "hello", true⟩ (Or.inl rfl)⟩

/-- JS String.prototype.toLowerCase, as used by the language comparison. -/
def lowerStr (s : String) : String := ⟨s.data.map Char.toLower⟩

/-- SyncMessageService.translateAndQueue, reduced to the enqueued text per
target channel.  The primary (LLM) result and the secondary (Google
Translate) result are each either a translated text or a failure (none).
The function returns the text enqueued for the target channel, or none
when the translation is skipped because source and target languages are
equal. -/
def translateAndQueue (sourceLanguage targetLanguage content : String)
    (llmResult googleResult : Option String) : Option String :=
  if lowerStr sourceLanguage = lowerStr targetLanguage then none
  else
    match llmResult with
    | some t => some t
    | none =>
      match googleResult with
      | some t => some (t ++ " 🔄")
      | none => some ("[Translation Error] " ++ content)

/-- C6: when both the primary and the secondary translation paths fail for
a target channel, the coordinator still enqueues a delivery carrying the
original message content prefixed by the explicit untranslated annotation
(the message is not dropped); when only the secondary path succeeds, the
enqueued text is the secondary translation with the fallback marker
appended. -/
theorem translate_failure_annotates (sourceLanguage targetLanguage content : String)
    (hlang : lowerStr sourceLanguage ≠ lowerStr targetLanguage) :
    (translateAndQueue sourceLanguage targetLanguage content none none =
      some ("[Translation Error] " ++ content)) ∧
    (∀ t : String,
      translateAndQueue sourceLanguage targetLanguage content none (some t) =
        some (t ++ " 🔄")) := by
  constructor
  · simp [translateAndQueue, hlang]
  · intro t; simp [translateAndQueue, hlang]

/-- Witness for C6 with source English, target German, content "hi". -/
theorem translate_failure_annotates_witness :
    (lowerStr "en" ≠ lowerStr "de") ∧
    translateAndQueue "en" "de" "hi" none none = some ("[Translation Error] " ++ "hi") ∧
    translateAndQueue "en" "de" "hi" none (some "hallo") = some ("hallo" ++ " 🔄") := by
  have hne : lowerStr "en" ≠ lowerStr "de" := by decide
  exact ⟨hne, (translate_failure_annotates "en" "de" "hi" hne).1,
    (translate_failure_annotates "en" "de" "hi" hne).2 "hallo"⟩
